import Mathlib

/-!
Verification development for the wasm2 host-side runtime
(src/ethcore/wasm2): a shallow embedding of the gas-accounting core
(runtime.rs), the import resolver (env.rs) and the execution driver
(lib.rs), together with theorems settling the frozen claims about them.

Machine integers are embedded as Nat with explicit reduction modulo
2 ^ 64 exactly where the source performs u64 arithmetic that may wrap.
Fallible operations return Except. The sandbox linear memory (owned by
the external wasmi engine, accessed only through its checked accessors
get / set / get_into) is embedded as a list of bytes with bounds-checked
access.
-/

deriving instance DecidableEq for Except

namespace Wasm2

/-- Modulus of u64 arithmetic. -/
def U64MOD : Nat := 2 ^ 64

/-- User trap in native code: the runtime error enum of runtime.rs. -/
inductive Error where
  | StorageReadError
  | StorageUpdateError
  | MemoryAccessViolation
  | Suicide
  | SuicideAbort
  | InvalidGasState
  | BalanceQueryError
  | AllocationFailed
  | GasLimit
  | Unknown
  | BadUtf8
  | Log
  | Other
  | InvalidSyscall
  | Panic (msg : String)
deriving DecidableEq, Repr

/-- RuntimeContext of runtime.rs: the invocation context snapshot.
Addresses are 20-byte sequences; the value is the 256-bit transfer
amount read as a natural number. -/
structure RuntimeContext where
  address : List Nat
  sender : List Nat
  origin : List Nat
  code_address : List Nat
  value : Nat
deriving DecidableEq, Repr

/-- The mutable state of the Runtime struct of runtime.rs: gas counter
and limit, the sandbox linear memory contents, the input argument
buffer, the return buffer, and the invocation context. -/
structure RuntimeState where
  gas_counter : Nat
  gas_limit : Nat
  memory : List Nat
  args : List Nat
  result : List Nat
  context : RuntimeContext
deriving DecidableEq, Repr

/-- Runtime.with_params: fresh runtime state with a zero gas counter and
an empty return buffer. -/
def with_params (memory : List Nat) (gas_limit : Nat) (args : List Nat)
    (context : RuntimeContext) : RuntimeState :=
  { gas_counter := 0, gas_limit := gas_limit, memory := memory,
    args := args, result := [], context := context }

/-- Runtime.charge_gas of runtime.rs: computes prev + amount in u64
arithmetic (hence reduced mod 2 ^ 64), refuses the charge when the sum
exceeds the gas limit (leaving the state untouched), and otherwise
records the sum as the new gas counter. -/
def charge_gas (amount : Nat) (st : RuntimeState) : Bool × RuntimeState :=
  let prev := st.gas_counter
  let sum := (prev + amount) % U64MOD
  if sum > st.gas_limit then
    (false, st)
  else
    (true, { st with gas_counter := sum })

/-- Runtime.charge of runtime.rs: run charge_gas and turn a refused
charge into the GasLimit error. -/
def charge (amount : Nat) (st : RuntimeState) : Except Error RuntimeState :=
  match charge_gas amount st with
  | (true, st1) => .ok st1
  | (false, _) => .error .GasLimit

/-- A sequence of charges, each observed state feeding the next; a
refused charge leaves the state unchanged, exactly as charge_gas does. -/
def charge_seq (costs : List Nat) (st : RuntimeState) : RuntimeState :=
  costs.foldl (fun s c => (charge_gas c s).2) st

/-- Checked read of len bytes at offset ptr: the engine accessor
MemoryInstance.get (also get_into) used by the Runtime; out-of-bounds
access surfaces as a memory access violation. -/
def memGet (mem : List Nat) (ptr len : Nat) : Except Error (List Nat) :=
  if ptr + len ≤ mem.length then
    .ok ((mem.drop ptr).take len)
  else
    .error .MemoryAccessViolation

/-- Checked write of the given bytes at offset ptr: the engine accessor
MemoryInstance.set used by the Runtime. -/
def memSet (mem : List Nat) (ptr : Nat) (data : List Nat) :
    Except Error (List Nat) :=
  if ptr + data.length ≤ mem.length then
    .ok (mem.take ptr ++ data ++ mem.drop (ptr + data.length))
  else
    .error .MemoryAccessViolation

/-- Runtime.address_at: read the 20 address bytes at ptr. -/
def address_at (mem : List Nat) (ptr : Nat) : Except Error (List Nat) :=
  memGet mem ptr 20

/-- Runtime.u256_at: read 32 bytes at ptr as a big-endian unsigned
integer. -/
def u256_at (mem : List Nat) (ptr : Nat) : Except Error Nat :=
  (memGet mem ptr 32).map fun bytes => bytes.foldl (fun a b => a * 256 + b) 0

/-- Runtime.ret of runtime.rs: copy the sandbox bytes at [ptr, ptr+len)
into the return buffer, replacing its previous contents. -/
def ret (ptr len : Nat) (st : RuntimeState) : Except Error RuntimeState :=
  (memGet st.memory ptr len).map fun bytes => { st with result := bytes }

/-- Runtime.result of runtime.rs: the current return buffer. -/
def result (st : RuntimeState) : List Nat := st.result

/-- Runtime.input_legnth of runtime.rs (source spelling): the length of
the argument buffer, returned as an i32 RuntimeValue; its args parameter
is ignored. -/
def input_legnth (st : RuntimeState) : Nat := st.args.length

/-- Runtime.fetch_input of runtime.rs: copy the argument buffer into
sandbox memory at ptr. -/
def fetch_input (ptr : Nat) (st : RuntimeState) : Except Error RuntimeState :=
  (memSet st.memory ptr st.args).map fun m => { st with memory := m }

/-- vm::CallType variants used by the sub-call surface. -/
inductive CallType where
  | Call
  | DelegateCall
  | StaticCall
deriving DecidableEq, Repr

/-- vm::MessageCallResult: outcome reported by the external state
provider for a sub-call. Success and Reverted carry the unused gas (the
return-data component is ignored by do_call); Failed carries nothing. -/
inductive MessageCallResult where
  | Success (gas_left : Nat)
  | Reverted (gas_left : Nat)
  | Failed
deriving DecidableEq, Repr

/-- The fields of the external gas schedule read by the embedded code:
call_gas for sub-calls and the per-page wasm.static_region factor for
the initial-memory charge. -/
structure Schedule where
  call_gas : Nat
  static_region : Nat
deriving DecidableEq, Repr

/-- Oracle for the borrowed external state provider (vm::Ext, out of
scope per the spec): the schedule, the answer of the balance query for
the current address, the outcome of the (at most one) sub-call of the
modelled fragment, and the contents the provider leaves in the result
buffer it mutates in place. -/
structure Ext where
  schedule : Schedule
  balanceResult : Except Unit Nat
  callResult : MessageCallResult
  callOutput : List Nat

/-- u64 wrapping subtraction. -/
def sub64 (a b : Nat) : Nat := (a + (U64MOD - b % U64MOD)) % U64MOD

/-- The result buffer handed back by the provider: a buffer of exactly
result_alloc_len bytes (it was created zero-filled with that length and
mutated in place, so bytes the provider did not touch stay zero). -/
def provider_buffer (out : List Nat) (alloc : Nat) : List Nat :=
  out.take alloc ++ List.replicate (alloc - out.length) 0

/-- Observable outcome of do_call: the i32 return value, the runtime
state after the call, whether the external provider was actually
invoked, and the gas counter at the moment of that invocation (none if
the provider was never reached). -/
structure DoCallOut where
  ret : Int
  state : RuntimeState
  providerCalled : Bool
  gasAtCall : Option Nat
deriving DecidableEq, Repr

/-- Runtime.do_call of runtime.rs, the common body of ccall, dcall and
scall. Steps, in source order: read the callee address; in the
value-bearing case read the transferred value and query the balance of
the current address, returning -1 immediately when the balance is
insufficient; charge call_gas; read the input payload; charge the
forwarded gas; invoke the provider. On Success or Reverted the unused
gas is refunded by u64 subtraction from the gas counter and the result
buffer is written back at result_ptr (returning 0 resp. -1); on Failed
it returns -1 with no refund and no write-back. -/
def do_call (use_val : Bool) (call_type : CallType) (ext : Ext)
    (gas addr_ptr val_ptr input_ptr input_len result_ptr
      result_alloc_len : Nat) (st : RuntimeState) :
    Except Error DoCallOut :=
  match address_at st.memory addr_ptr with
  | .error e => .error e
  | .ok _address =>
  match (if use_val then (u256_at st.memory val_ptr).map some
         else .ok none) with
  | .error e => .error e
  | .ok val =>
  match (match val with
         | some v =>
           match ext.balanceResult with
           | .error _ => Except.error Error.BalanceQueryError
           | .ok address_balance => Except.ok (decide (address_balance < v))
         | none => Except.ok false) with
  | .error e => .error e
  | .ok true => .ok ⟨-1, st, false, none⟩
  | .ok false =>
  match charge ext.schedule.call_gas st with
  | .error e => .error e
  | .ok st1 =>
  match memGet st1.memory input_ptr input_len with
  | .error e => .error e
  | .ok _payload =>
  match charge gas st1 with
  | .error e => .error e
  | .ok st2 =>
  match ext.callResult with
  | .Success gas_left =>
    match memSet st2.memory result_ptr
        (provider_buffer ext.callOutput result_alloc_len) with
    | .error e => .error e
    | .ok mem1 =>
      .ok ⟨0, { st2 with
                gas_counter := sub64 st2.gas_counter gas_left
                memory := mem1 }, true, some st2.gas_counter⟩
  | .Reverted gas_left =>
    match memSet st2.memory result_ptr
        (provider_buffer ext.callOutput result_alloc_len) with
    | .error e => .error e
    | .ok mem1 =>
      .ok ⟨-1, { st2 with
                 gas_counter := sub64 st2.gas_counter gas_left
                 memory := mem1 }, true, some st2.gas_counter⟩
  | .Failed => .ok ⟨-1, st2, true, some st2.gas_counter⟩

/-- Runtime.ccall: value-bearing call. -/
def ccall (ext : Ext)
    (gas addr_ptr val_ptr input_ptr input_len result_ptr
      result_alloc_len : Nat) (st : RuntimeState) : Except Error DoCallOut :=
  do_call true .Call ext gas addr_ptr val_ptr input_ptr input_len
    result_ptr result_alloc_len st

/-- Runtime.dcall: delegate call, no value argument. -/
def dcall (ext : Ext)
    (gas addr_ptr input_ptr input_len result_ptr result_alloc_len : Nat)
    (st : RuntimeState) : Except Error DoCallOut :=
  do_call false .DelegateCall ext gas addr_ptr 0 input_ptr input_len
    result_ptr result_alloc_len st

/-- Runtime.scall: static call, no value argument. -/
def scall (ext : Ext)
    (gas addr_ptr input_ptr input_len result_ptr result_alloc_len : Nat)
    (st : RuntimeState) : Except Error DoCallOut :=
  do_call false .StaticCall ext gas addr_ptr 0 input_ptr input_len
    result_ptr result_alloc_len st

/-- wasmi value types appearing in host signatures. -/
inductive ValueType where
  | I32
  | I64
deriving DecidableEq, Repr

/-- signatures::StaticSignature of env.rs: parameter types and optional
return type. -/
structure StaticSignature where
  params : List ValueType
  ret : Option ValueType
deriving DecidableEq, Repr

/-- Host function indices of the ids module of env.rs. These six are the
only indices the module defines. -/
def STORAGE_READ_FUNC : Nat := 10

/-- Host function index of ret in env.rs. -/
def RET_FUNC : Nat := 20

/-- Host function index of gas in env.rs. -/
def GAS_FUNC : Nat := 30

/-- Host function index of fetch_input in env.rs. -/
def FETCH_INPUT_FUNC : Nat := 40

/-- Host function index of input_length in env.rs. -/
def INPUT_LENGTH_FUNC : Nat := 50

/-- Host function index of panic in env.rs. -/
def PANIC_FUNC : Nat := 100

/-- ImportResolver::resolve_func of env.rs: maps a host import name on
namespace env to its (index, static signature) binding; any other name
is the instantiation error the source formats as Export NAME not
found. -/
def resolve_func (field_name : String) :
    Except String (Nat × StaticSignature) :=
  match field_name with
  | "storage_read" => .ok (STORAGE_READ_FUNC, ⟨[.I32, .I32], none⟩)
  | "ret" => .ok (RET_FUNC, ⟨[.I32, .I32], none⟩)
  | "gas" => .ok (GAS_FUNC, ⟨[.I32], none⟩)
  | "input_length" => .ok (INPUT_LENGTH_FUNC, ⟨[], some .I32⟩)
  | "fetch_input" => .ok (FETCH_INPUT_FUNC, ⟨[.I32], none⟩)
  | "panic" => .ok (PANIC_FUNC, ⟨[.I32, .I32], none⟩)
  | _ => .error ("Export " ++ field_name ++ " not found")

/-- ImportResolver::resolve_memory of env.rs: the memory import on
namespace env must be named memory; the requested initial pages must be
below the resolver cap and a declared maximum must lie between initial
and the cap, otherwise instantiation fails with the too-much-memory
error. On success the memory is allocated with the requested
descriptor. -/
def resolve_memory (field_name : String) (initial : Nat)
    (maximum : Option Nat) (max_memory : Nat) :
    Except String (Nat × Option Nat) :=
  if field_name = "memory" then
    if decide (initial ≥ max_memory)
        || (match maximum with
            | some m => decide (m < initial) || decide (m > max_memory)
            | none => false) then
      .error "Module requested too much memory"
    else
      .ok (initial, maximum)
  else
    .error "Memory imported under unknown name"

/-- GasLeft of the outer vm crate: the result shape exec returns. -/
inductive GasLeft where
  | Known (gas_left : Nat)
  | NeedsReturn (gas_left : Nat) (data : List Nat) (apply_state : Bool)
deriving DecidableEq, Repr

/-- The right-hand side of the assert in exec, spelled 2^16 in the
source; the caret is the Rust bitwise xor. -/
def two_caret_sixteen : Nat := Nat.xor 2 16

/-- The initial-memory charge amount of exec (lib.rs line 123): pages
times 64 times 1024 times wasm.static_region, computed in u64. -/
def initial_memory_charge (initial_memory static_region : Nat) : Nat :=
  (initial_memory * 64 * 1024 * static_region) % U64MOD

/-- exec of lib.rs (the vm::Vm impl of WasmInterpreter), from the point
after module instantiation: initial_memory is the page count reported by
the resolver. The assert on static_region aborts the process when it
fails, modelled as none. After the initial-memory charge the live code
returns the constant GasLeft::Known(0); the gas-left computation and the
return-buffer shaping described by the spec are commented out in the
source. -/
def exec (initial_memory gas_limit : Nat) (sched : Schedule)
    (memory args : List Nat) (context : RuntimeContext) :
    Option (Except Error GasLeft) :=
  if sched.static_region < two_caret_sixteen then
    some (match charge (initial_memory_charge initial_memory
            sched.static_region)
          (with_params memory gas_limit args context) with
      | .ok _ => .ok (GasLeft.Known 0)
      | .error e => .error e)
  else
    none

/-- Concrete runtime state for witnesses: 52 bytes of sandbox memory, a
two-byte input buffer, gas limit 100. -/
def sampleState : RuntimeState :=
  with_params ([1, 2, 3, 4, 5, 6, 7, 8] ++ List.replicate 44 0) 100 [9, 9]
    ⟨[], [], [], [], 0⟩

/-- sampleState memory after fetch_input at offset 3. -/
def sampleMemF : List Nat := [1, 2, 3, 9, 9, 6, 7, 8] ++ List.replicate 44 0

/-- The gas limit is frozen: no charge changes it. -/
theorem charge_gas_limit_eq (a : Nat) (st : RuntimeState) :
    ((charge_gas a st).2).gas_limit = st.gas_limit := by
  unfold charge_gas
  dsimp only
  split <;> rfl

/-- One charge preserves the invariant gas_counter less-or-equal
gas_limit. -/
theorem charge_gas_inv (a : Nat) (st : RuntimeState)
    (h : st.gas_counter ≤ st.gas_limit) :
    ((charge_gas a st).2).gas_counter ≤ ((charge_gas a st).2).gas_limit := by
  unfold charge_gas
  dsimp only
  split
  · exact h
  · next hle => exact Nat.le_of_not_lt hle

/-- C2: for every sequence of charges through the Runtime, the invariant
gas_counter less-or-equal gas_limit holds at every observable state, and
a single charge whose recorded sum would exceed the limit returns the
GasLimit error leaving the state exactly unchanged (charging is atomic
on failure). -/
theorem charge_gas_limit_invariant (costs : List Nat) (a : Nat)
    (st : RuntimeState) (h : st.gas_counter ≤ st.gas_limit) :
    (charge_seq costs st).gas_counter ≤ (charge_seq costs st).gas_limit
    ∧ ((st.gas_counter + a) % U64MOD > st.gas_limit →
        charge a st = .error .GasLimit ∧ charge_gas a st = (false, st)) := by
  constructor
  · induction costs generalizing st with
    | nil => exact h
    | cons c cs ih =>
      simp only [charge_seq, List.foldl_cons] at *
      exact ih _ (charge_gas_inv c st h)
  · intro hover
    have hgas : charge_gas a st = (false, st) := by
      unfold charge_gas
      dsimp only
      rw [if_pos hover]
    refine ⟨?_, hgas⟩
    unfold charge
    rw [hgas]

/-- Witness for C2 at a concrete state (counter 0, limit 5), concrete
charge sequence [3, 4] and a concrete over-limit charge 6. -/
theorem charge_gas_limit_invariant_witness :
    (charge_seq [3, 4] (with_params [] 5 [] ⟨[], [], [], [], 0⟩)).gas_counter
      ≤ (charge_seq [3, 4] (with_params [] 5 [] ⟨[], [], [], [], 0⟩)).gas_limit
    ∧ charge 6 (with_params [] 5 [] ⟨[], [], [], [], 0⟩) = .error .GasLimit
    ∧ charge_gas 6 (with_params [] 5 [] ⟨[], [], [], [], 0⟩)
        = (false, with_params [] 5 [] ⟨[], [], [], [], 0⟩) := by
  have h := charge_gas_limit_invariant [3, 4] 6
    (with_params [] 5 [] ⟨[], [], [], [], 0⟩) (by decide)
  have h2 := h.2 (by decide)
  exact ⟨h.1, h2.1, h2.2⟩

/-- C3 counterexample: with gas_counter 1 and gas_limit 10, a charge of
2 ^ 64 - 1 wraps around in the u64 addition, passes the guard, and is
accepted — setting the gas counter to 0 — although the true mathematical
sum 1 + (2 ^ 64 - 1) far exceeds the limit. So the guard is not
evaluated with exact non-wrapping arithmetic and the u64 addition of
charge_gas does wrap for reachable inputs (the amount is the
contract-controlled forwarded gas of a sub-call). -/
theorem charge_gas_overflow_counterexample :
    (charge_gas (2 ^ 64 - 1)
        { with_params [] 10 [] ⟨[], [], [], [], 0⟩ with
          gas_counter := 1 }).1 = true
    ∧ (1 : Nat) + (2 ^ 64 - 1) > 10
    ∧ (charge_gas (2 ^ 64 - 1)
        { with_params [] 10 [] ⟨[], [], [], [], 0⟩ with
          gas_counter := 1 }).2.gas_counter = 0 := by
  refine ⟨?_, by decide, ?_⟩ <;> decide

/-- C3 amended: a charge is accepted if and only if the wrapped u64 sum
(gas_counter + cost) mod 2 ^ 64 is at most gas_limit; whenever the
mathematical sum does not overflow u64 this coincides with the exact
guard of the claim. -/
theorem charge_gas_wrapped_guard (a : Nat) (st : RuntimeState) :
    ((charge_gas a st).1 = true ↔ (st.gas_counter + a) % U64MOD ≤ st.gas_limit)
    ∧ (st.gas_counter + a < U64MOD →
        ((charge_gas a st).1 = true ↔ st.gas_counter + a ≤ st.gas_limit)) := by
  have hbase : (charge_gas a st).1 = true ↔
      (st.gas_counter + a) % U64MOD ≤ st.gas_limit := by
    unfold charge_gas
    dsimp only
    split
    · next hgt => simp [Nat.not_le_of_lt hgt]
    · next hle => simp [Nat.le_of_not_lt hle]
  refine ⟨hbase, fun hlt => ?_⟩
  rw [hbase, Nat.mod_eq_of_lt hlt]

/-- Witness for C3 amended at the concrete state (counter 2, limit 9)
and charge 3. -/
theorem charge_gas_wrapped_guard_witness :
    ((charge_gas 3
        { with_params [] 9 [] ⟨[], [], [], [], 0⟩ with gas_counter := 2 }).1
          = true
      ↔ ((2 : Nat) + 3) % U64MOD ≤ 9)
    ∧ ((charge_gas 3
        { with_params [] 9 [] ⟨[], [], [], [], 0⟩ with gas_counter := 2 }).1
          = true
      ↔ (2 : Nat) + 3 ≤ 9) := by
  have h := charge_gas_wrapped_guard 3
    { with_params [] 9 [] ⟨[], [], [], [], 0⟩ with gas_counter := 2 }
  exact ⟨h.1, h.2 (by decide)⟩

/-- Characterization of a successful charge: the guard holds on the
wrapped sum and the only change is the new gas counter. -/
theorem charge_ok_iff (a : Nat) (st st1 : RuntimeState) :
    charge a st = .ok st1 ↔
      ((st.gas_counter + a) % U64MOD ≤ st.gas_limit
        ∧ st1 = { st with gas_counter := (st.gas_counter + a) % U64MOD }) := by
  unfold charge charge_gas
  dsimp only
  by_cases hgt : (st.gas_counter + a) % U64MOD > st.gas_limit
  · rw [if_pos hgt]
    simp [Nat.not_le_of_lt hgt]
  · rw [if_neg hgt]
    simp [Nat.le_of_not_lt hgt, eq_comm]

/-- u64 wrapping subtraction agrees with truncated subtraction below the
modulus. -/
theorem sub64_eq_sub (a b : Nat) (hb : b ≤ a) (ha : a < U64MOD) :
    sub64 a b = a - b := by
  have hM : U64MOD = 18446744073709551616 := by norm_num [U64MOD]
  unfold sub64
  rw [hM] at ha ⊢
  rw [Nat.mod_eq_of_lt (by omega : b < 18446744073709551616)]
  rw [show a + (18446744073709551616 - b) = (a - b) + 18446744073709551616 by
    omega]
  rw [Nat.add_mod_right]
  exact Nat.mod_eq_of_lt (by omega)

/-- An in-bounds checked write succeeds and splices the data in. -/
theorem memSet_ok (mem data : List Nat) (ptr : Nat)
    (h : ptr + data.length ≤ mem.length) :
    memSet mem ptr data
      = .ok (mem.take ptr ++ data ++ mem.drop (ptr + data.length)) := by
  unfold memSet
  rw [if_pos h]

/-- Reading back an in-bounds write returns exactly the written data. -/
theorem memGet_memSet_same (mem data : List Nat) (ptr : Nat)
    (h : ptr + data.length ≤ mem.length) :
    memGet (mem.take ptr ++ data ++ mem.drop (ptr + data.length)) ptr
      data.length = .ok data := by
  have htake : (mem.take ptr).length = ptr := by
    rw [List.length_take]
    omega
  have hlen : (mem.take ptr ++ data ++ mem.drop (ptr + data.length)).length
      = mem.length := by
    simp only [List.length_append, List.length_take, List.length_drop]
    omega
  unfold memGet
  rw [if_pos (by omega)]
  have hdrop := List.drop_left (mem.take ptr) (data ++ mem.drop
    (ptr + data.length))
  rw [htake] at hdrop
  rw [List.append_assoc, hdrop, List.take_left]

/-- C7: the assert of exec compares static_region against the source
expression written 2^16, which in Rust is bitwise xor and evaluates to
18. A static_region passing the assert as written is in particular below
65536, and that bound makes the initial-memory product fit in 64 bits
for every page count below 2^32, so the u64 modulus in
initial_memory_charge never truncates. -/
theorem static_region_assert_establishes_bound (s p : Nat)
    (hs : s < two_caret_sixteen) (hp : p < 2 ^ 32) :
    two_caret_sixteen = 18
    ∧ s < 65536
    ∧ p * 64 * 1024 * s < 2 ^ 64
    ∧ initial_memory_charge p s = p * 64 * 1024 * s := by
  have h18 : two_caret_sixteen = 18 := by decide
  have hs18 : s < 18 := h18 ▸ hs
  have hbound : p * 64 * 1024 * s < 2 ^ 64 := by
    calc p * 64 * 1024 * s ≤ (2 ^ 32 - 1) * 64 * 1024 * 17 :=
          Nat.mul_le_mul
            (Nat.mul_le_mul (Nat.mul_le_mul (by omega) (le_refl 64))
              (le_refl 1024)) (by omega)
      _ < 2 ^ 64 := by norm_num
  refine ⟨h18, by omega, hbound, ?_⟩
  unfold initial_memory_charge U64MOD
  exact Nat.mod_eq_of_lt hbound

/-- Witness for C7 at the extreme admissible inputs s = 17 and
p = 2 ^ 32 - 1. -/
theorem static_region_assert_establishes_bound_witness :
    two_caret_sixteen = 18
    ∧ 17 < 65536
    ∧ (2 ^ 32 - 1) * 64 * 1024 * 17 < 2 ^ 64
    ∧ initial_memory_charge (2 ^ 32 - 1) 17 = (2 ^ 32 - 1) * 64 * 1024 * 17 :=
  static_region_assert_establishes_bound 17 (2 ^ 32 - 1) (by decide)
    (by norm_num)

/-- C6 counterexample: with 18 pages and static_region 1 the driver
charge is 18 * 65536 = 1179648 and lands in the gas counter in full; a
17-page stipend would have charged (18 - 17) * 65536 = 65536 instead. -/
theorem initial_memory_stipend_counterexample :
    initial_memory_charge 18 1 = 1179648
    ∧ (charge (initial_memory_charge 18 1)
        (with_params [] 2000000 [] ⟨[], [], [], [], 0⟩)).map
        (fun st => st.gas_counter) = .ok 1179648
    ∧ (1179648 : Nat) ≠ (18 - 17) * 65536 * 1 := by
  refine ⟨by decide, by decide, by decide⟩

/-- C6 amended: the driver grants no free pages; the initial-memory
charge is the per-page static_region cost on all p pages, and under the
intended bounds the post-charge gas counter is exactly
p * 65536 * static_region. -/
theorem initial_memory_charge_all_pages (p s gl : Nat) (mem args : List Nat)
    (ctx : RuntimeContext) (hp : p < 2 ^ 32) (hs : s < 65536)
    (hle : p * 65536 * s ≤ gl) :
    charge (initial_memory_charge p s) (with_params mem gl args ctx)
      = .ok { with_params mem gl args ctx with
              gas_counter := p * 65536 * s } := by
  have heq : p * 64 * 1024 * s = p * 65536 * s := by ring
  have hb : p * 65536 * s < 2 ^ 64 := by
    calc p * 65536 * s ≤ (2 ^ 32 - 1) * 65536 * 65535 :=
          Nat.mul_le_mul (Nat.mul_le_mul (by omega) (le_refl 65536)) (by omega)
      _ < 2 ^ 64 := by norm_num
  have hch : initial_memory_charge p s = p * 65536 * s := by
    unfold initial_memory_charge U64MOD
    rw [heq]
    exact Nat.mod_eq_of_lt hb
  have hmod : ((with_params mem gl args ctx).gas_counter + p * 65536 * s)
      % U64MOD = p * 65536 * s := by
    have h0 : (with_params mem gl args ctx).gas_counter = 0 := rfl
    rw [h0, Nat.zero_add]
    exact Nat.mod_eq_of_lt (by unfold U64MOD; exact hb)
  rw [hch]
  refine (charge_ok_iff _ _ _).mpr ⟨?_, ?_⟩
  · rw [hmod]
    exact hle
  · rw [hmod]

/-- Witness for C6 amended at 18 pages, static_region 1 and a budget of
2000000. -/
theorem initial_memory_charge_all_pages_witness :
    charge (initial_memory_charge 18 1)
      (with_params [] 2000000 [] ⟨[], [], [], [], 0⟩)
      = .ok { with_params [] 2000000 [] ⟨[], [], [], [], 0⟩ with
              gas_counter := 18 * 65536 * 1 } :=
  initial_memory_charge_all_pages 18 1 2000000 [] [] ⟨[], [], [], [], 0⟩
    (by norm_num) (by norm_num) (by norm_num)

/-- C1: the live exec path returns the constant GasLeft.Known 0 for
every execution that completes, and in particular for the empty-contract
scenario (one page, budget 100000, static_region 1) it does not return
Known (100000 - initial_memory_charge) = Known 34464: the gas-left and
return-buffer shaping the claim describes is commented out in the
source. -/
theorem exec_live_result_is_constant_known_zero :
    (∀ p gl sch mem args ctx r,
        exec p gl sch mem args ctx = some (.ok r) → r = GasLeft.Known 0)
    ∧ exec 1 100000 ⟨40, 1⟩ [] [] ⟨[], [], [], [], 0⟩
        = some (.ok (GasLeft.Known 0))
    ∧ (100000 : Nat) - initial_memory_charge 1 1 = 34464
    ∧ GasLeft.Known 0 ≠ GasLeft.Known (100000 - initial_memory_charge 1 1) := by
  refine ⟨?_, by decide, by decide, by decide⟩
  intro p gl sch mem args ctx r h
  unfold exec at h
  split at h
  · cases hch : charge (initial_memory_charge p sch.static_region)
        (with_params mem gl args ctx) with
    | ok st => rw [hch] at h; simp at h; exact h.symm
    | error e => rw [hch] at h; simp at h
  · simp at h

/-- Witness for C1: the universally quantified constancy conjunct,
applied at the empty-contract scenario. -/
theorem exec_live_result_is_constant_known_zero_witness :
    GasLeft.Known 0 = GasLeft.Known 0 :=
  exec_live_result_is_constant_known_zero.1 1 100000 ⟨40, 1⟩ [] []
    ⟨[], [], [], [], 0⟩ (GasLeft.Known 0) (by decide)

/-- C5: resolve_func provides exactly six host imports; names from the
section-6 table such as storage_write, ccall and create are rejected
with an instantiation error, although the host dispatcher of runtime.rs
imports ids for them from the ids module of env.rs, where they do not
exist. -/
theorem resolve_func_missing_claimed_names :
    resolve_func "storage_write" = .error "Export storage_write not found"
    ∧ resolve_func "ccall" = .error "Export ccall not found"
    ∧ resolve_func "create" = .error "Export create not found"
    ∧ resolve_func "storage_read"
        = .ok (STORAGE_READ_FUNC, ⟨[.I32, .I32], none⟩)
    ∧ STORAGE_READ_FUNC = 10 := by
  refine ⟨rfl, rfl, rfl, rfl, rfl⟩

/-- Characterization of a successful checked read. -/
theorem memGet_ok_iff (mem : List Nat) (ptr len : Nat) (bytes : List Nat) :
    memGet mem ptr len = .ok bytes ↔
      (ptr + len ≤ mem.length ∧ bytes = (mem.drop ptr).take len) := by
  unfold memGet
  split
  · next h => simp [h, eq_comm]
  · next h => simp [h]

/-- Characterization of a successful checked write. -/
theorem memSet_ok_iff (mem : List Nat) (ptr : Nat) (data m : List Nat) :
    memSet mem ptr data = .ok m ↔
      (ptr + data.length ≤ mem.length
        ∧ m = mem.take ptr ++ data ++ mem.drop (ptr + data.length)) := by
  unfold memSet
  split
  · next h => simp [h, eq_comm]
  · next h => simp [h]

/-- A successful charge does not touch the return buffer. -/
theorem charge_result_eq (a : Nat) (st st1 : RuntimeState)
    (h : charge a st = .ok st1) : st1.result = st.result := by
  rw [((charge_ok_iff a st st1).mp h).2]

/-- When the provider respects the buffer length, the handed-back buffer
is exactly its output. -/
theorem provider_buffer_exact (out : List Nat) (alloc : Nat)
    (h : out.length = alloc) : provider_buffer out alloc = out := by
  unfold provider_buffer
  subst h
  rw [List.take_length]
  simp

/-- The page-bound condition of resolve_memory, unfolded to the
arithmetic the claim states. -/
theorem resolve_memory_cond (i c : Nat) (mx : Option Nat) :
    ((decide (i ≥ c) || (match mx with
        | some m => decide (m < i) || decide (m > c)
        | none => false)) = false)
      ↔ (i < c ∧ ∀ m, mx = some m → i ≤ m ∧ m ≤ c) := by
  cases mx with
  | none => simp [Nat.not_le]
  | some m => simp [Nat.not_le, Nat.not_lt]

/-- C8: resolve_memory succeeds exactly when the field name is memory,
the initial page count is below the cap, and any declared maximum lies
between initial and the cap; a page-bound violation yields the
too-much-memory instantiation error (in particular a module declaring
minimum 128 pages against the cap of 64), and any other field name
yields an instantiation error. -/
theorem resolve_memory_spec (field_name : String) (initial : Nat)
    (maximum : Option Nat) (cap : Nat) :
    ((resolve_memory field_name initial maximum cap).isOk = true ↔
      (field_name = "memory" ∧ initial < cap ∧
        ∀ m, maximum = some m → initial ≤ m ∧ m ≤ cap))
    ∧ (field_name = "memory" →
        ¬ (initial < cap ∧ ∀ m, maximum = some m → initial ≤ m ∧ m ≤ cap) →
        resolve_memory field_name initial maximum cap
          = .error "Module requested too much memory")
    ∧ (field_name ≠ "memory" →
        resolve_memory field_name initial maximum cap
          = .error "Memory imported under unknown name")
    ∧ resolve_memory "memory" 128 none 64
        = .error "Module requested too much memory" := by
  refine ⟨?_, ?_, ?_, rfl⟩
  · by_cases hf : field_name = "memory"
    · subst hf
      unfold resolve_memory
      rw [if_pos rfl]
      cases hb : (decide (initial ≥ cap) || (match maximum with
          | some m => decide (m < initial) || decide (m > cap)
          | none => false)) with
      | false =>
        rw [if_neg (by simp)]
        constructor
        · intro _
          exact ⟨rfl, ((resolve_memory_cond initial cap maximum).mp hb).1,
            ((resolve_memory_cond initial cap maximum).mp hb).2⟩
        · intro _
          rfl
      | true =>
        rw [if_pos rfl]
        constructor
        · intro hcontra
          exact Bool.noConfusion hcontra
        · intro hr
          have hc := (resolve_memory_cond initial cap maximum).mpr
            ⟨hr.2.1, hr.2.2⟩
          rw [hb] at hc
          exact Bool.noConfusion hc
    · unfold resolve_memory
      rw [if_neg hf]
      constructor
      · intro hcontra
        exact Bool.noConfusion hcontra
      · intro hr
        exact absurd hr.1 hf
  · intro hf hbad
    subst hf
    unfold resolve_memory
    rw [if_pos rfl]
    revert hbad
    cases hb : (decide (initial ≥ cap) || (match maximum with
        | some m => decide (m < initial) || decide (m > cap)
        | none => false)) with
    | false =>
      intro hbad
      exact absurd ((resolve_memory_cond initial cap maximum).mp hb) hbad
    | true =>
      intro _
      rw [if_pos rfl]
  · intro hf
    unfold resolve_memory
    rw [if_neg hf]

/-- Witness for C8: a declared maximum between initial and the cap is
accepted; a too-large minimum is rejected with the too-much-memory
error; a wrong field name is rejected. -/
theorem resolve_memory_spec_witness :
    (resolve_memory "memory" 1 (some 2) 64).isOk = true
    ∧ resolve_memory "memory" 128 none 64
        = .error "Module requested too much memory"
    ∧ resolve_memory "data" 1 none 64
        = .error "Memory imported under unknown name" := by
  refine ⟨?_, ?_, ?_⟩
  · exact (resolve_memory_spec "memory" 1 (some 2) 64).1.mpr
      ⟨rfl, by omega, by intro m hm; cases hm; omega⟩
  · exact (resolve_memory_spec "memory" 128 none 64).2.1 rfl
      (by intro hc; omega)
  · exact (resolve_memory_spec "data" 1 none 64).2.2.1 (by decide)

/-- do_call never touches the return buffer: whatever path it takes, the
state it returns carries the caller return buffer unchanged. -/
theorem do_call_result_eq (uv : Bool) (ct : CallType) (ext : Ext)
    (g ap vp ip il rp ral : Nat) (st : RuntimeState) (out : DoCallOut)
    (h : do_call uv ct ext g ap vp ip il rp ral st = .ok out) :
    out.state.result = st.result := by
  unfold do_call at h
  cases haddr : address_at st.memory ap with
  | error e => rw [haddr] at h; simp at h
  | ok _a =>
    rw [haddr] at h
    try dsimp only at h
    cases hval : (if uv then (u256_at st.memory vp).map some
        else (.ok none : Except Error (Option Nat))) with
    | error e => rw [hval] at h; simp at h
    | ok val =>
      rw [hval] at h
      try dsimp only at h
      cases hbal : (match val with
          | some v =>
            match ext.balanceResult with
            | .error _ => Except.error Error.BalanceQueryError
            | .ok address_balance => Except.ok (decide (address_balance < v))
          | none => Except.ok false) with
      | error e => rw [hbal] at h; simp at h
      | ok insufficient =>
        rw [hbal] at h
        try dsimp only at h
        cases insufficient with
        | true =>
          simp only [Except.ok.injEq] at h
          rw [← h]
        | false =>
          cases hc1 : charge ext.schedule.call_gas st with
          | error e => rw [hc1] at h; simp at h
          | ok st1 =>
            rw [hc1] at h
            try dsimp only at h
            have hr1 : st1.result = st.result :=
              charge_result_eq ext.schedule.call_gas st st1 hc1
            cases hpay : memGet st1.memory ip il with
            | error e => rw [hpay] at h; simp at h
            | ok _payload =>
              rw [hpay] at h
              try dsimp only at h
              cases hc2 : charge g st1 with
              | error e => rw [hc2] at h; simp at h
              | ok st2 =>
                rw [hc2] at h
                try dsimp only at h
                have hr2 : st2.result = st1.result :=
                  charge_result_eq g st1 st2 hc2
                cases hcall : ext.callResult with
                | Success gl =>
                  rw [hcall] at h
                  try dsimp only at h
                  cases hset : memSet st2.memory rp
                      (provider_buffer ext.callOutput ral) with
                  | error e => rw [hset] at h; simp at h
                  | ok mem1 =>
                    rw [hset] at h
                    simp only [Except.ok.injEq] at h
                    rw [← h]
                    dsimp only
                    rw [hr2, hr1]
                | Reverted gl =>
                  rw [hcall] at h
                  try dsimp only at h
                  cases hset : memSet st2.memory rp
                      (provider_buffer ext.callOutput ral) with
                  | error e => rw [hset] at h; simp at h
                  | ok mem1 =>
                    rw [hset] at h
                    simp only [Except.ok.injEq] at h
                    rw [← h]
                    dsimp only
                    rw [hr2, hr1]
                | Failed =>
                  rw [hcall] at h
                  simp only [Except.ok.injEq] at h
                  rw [← h]
                  dsimp only
                  rw [hr2, hr1]

/-- C9: the return-buffer protocol. A successful ret stores exactly the
memory region [ptr, ptr+len) as the result, touching nothing else; a
second ret fully overwrites the first (last-writer-wins); fetch_input,
charge and do_call never write the result, and copying the input to
memory via fetch_input and then returning the same buffer with length
input_legnth yields exactly the original input (round-trip identity). -/
theorem ret_result_protocol (st : RuntimeState) (ptr len p1 l1 p2 l2 : Nat) :
    (∀ st1, ret ptr len st = .ok st1 →
        result st1 = (st.memory.drop ptr).take len
        ∧ st1.memory = st.memory ∧ st1.args = st.args)
    ∧ (∀ st1 st2, ret p1 l1 st = .ok st1 → ret p2 l2 st1 = .ok st2 →
        result st2 = (st.memory.drop p2).take l2)
    ∧ (∀ st1, fetch_input ptr st = .ok st1 →
        result st1 = result st
        ∧ ret ptr (input_legnth st1) st1 = .ok { st1 with result := st.args })
    ∧ (∀ a st1, charge a st = .ok st1 → result st1 = result st)
    ∧ (∀ uv ct ext g ap vp ip il rp ral out,
        do_call uv ct ext g ap vp ip il rp ral st = .ok out →
        result out.state = result st) := by
  have hret : ∀ (q l : Nat) (s s1 : RuntimeState), ret q l s = .ok s1 →
      s1 = { s with result := (s.memory.drop q).take l } := by
    intro q l s s1 h
    unfold ret at h
    cases hg : memGet s.memory q l with
    | error e => rw [hg] at h; simp [Except.map] at h
    | ok bytes =>
      rw [hg] at h
      simp only [Except.map, Except.ok.injEq] at h
      rw [← h, ((memGet_ok_iff s.memory q l bytes).mp hg).2]
  refine ⟨?_, ?_, ?_, ?_, ?_⟩
  · intro st1 h
    rw [hret ptr len st st1 h]
    exact ⟨rfl, rfl, rfl⟩
  · intro st1 st2 h1 h2
    rw [hret p2 l2 st1 st2 h2, hret p1 l1 st st1 h1]
    rfl
  · intro st1 h
    unfold fetch_input at h
    cases hs : memSet st.memory ptr st.args with
    | error e => rw [hs] at h; simp [Except.map] at h
    | ok m =>
      rw [hs] at h
      simp only [Except.map, Except.ok.injEq] at h
      obtain ⟨hbound, hm⟩ := (memSet_ok_iff st.memory ptr st.args m).mp hs
      refine ⟨by rw [← h]; rfl, ?_⟩
      have hargs : st1.args = st.args := by rw [← h]
      have hmem : st1.memory = m := by rw [← h]
      have hlen : input_legnth st1 = st.args.length := by
        unfold input_legnth
        rw [hargs]
      unfold ret
      rw [hlen, hmem, hm, memGet_memSet_same st.memory st.args ptr hbound]
      rfl
  · intro a st1 h
    exact charge_result_eq a st st1 h
  · intro uv ct ext g ap vp ip il rp ral out h
    exact do_call_result_eq uv ct ext g ap vp ip il rp ral st out h

/-- Witness for C9 at sampleState: a concrete ret, a concrete ret-ret
overwrite, a concrete fetch_input round trip, a concrete charge, and a
concrete do_call that reaches the provider, each instantiating the
corresponding conjunct. -/
theorem ret_result_protocol_witness :
    (result { sampleState with result := [4, 5] }
        = (sampleState.memory.drop 3).take 2
      ∧ ({ sampleState with result := [4, 5] } : RuntimeState).memory
          = sampleState.memory
      ∧ ({ sampleState with result := [4, 5] } : RuntimeState).args
          = sampleState.args)
    ∧ result { sampleState with result := [3, 4, 5] }
        = (sampleState.memory.drop 2).take 3
    ∧ (result { sampleState with memory := sampleMemF } = result sampleState
      ∧ ret 3 (input_legnth { sampleState with memory := sampleMemF })
          { sampleState with memory := sampleMemF }
          = .ok { { sampleState with memory := sampleMemF } with
                  result := sampleState.args })
    ∧ result { sampleState with gas_counter := 7 } = result sampleState
    ∧ result ({ sampleState with gas_counter := 3 } : RuntimeState)
        = result sampleState := by
  have h := ret_result_protocol sampleState 3 2 0 1 2 3
  exact ⟨h.1 { sampleState with result := [4, 5] } (by decide),
    h.2.1 { sampleState with result := [1] }
      { sampleState with result := [3, 4, 5] } (by decide) (by decide),
    h.2.2.1 { sampleState with memory := sampleMemF } (by decide),
    h.2.2.2.1 7 { sampleState with gas_counter := 7 } (by decide),
    h.2.2.2.2 true .Call ⟨⟨1, 1⟩, .ok 0, .Failed, []⟩ 2 0 20 0 0 0 0
      ⟨-1, { sampleState with gas_counter := 3 }, true, some 3⟩ (by decide)⟩

/-- C10: a value-bearing call whose balance query succeeds with a
balance strictly below the transferred value returns -1 immediately with
no side effect: the runtime state (gas counter, memory, return buffer)
is returned unchanged, the provider is never invoked, and no gas was
charged at any point. -/
theorem do_call_insufficient_balance_no_effect
    (ct : CallType) (ext : Ext)
    (gas addr_ptr val_ptr input_ptr input_len result_ptr ral : Nat)
    (st : RuntimeState) (a : List Nat) (v b : Nat)
    (haddr : address_at st.memory addr_ptr = .ok a)
    (hv : u256_at st.memory val_ptr = .ok v)
    (hb : ext.balanceResult = .ok b)
    (hlt : b < v) :
    do_call true ct ext gas addr_ptr val_ptr input_ptr input_len result_ptr
      ral st = .ok ⟨-1, st, false, none⟩ := by
  have hval : (if true then (u256_at st.memory val_ptr).map some
      else (.ok none : Except Error (Option Nat))) = .ok (some v) := by
    rw [if_pos rfl, hv]
    rfl
  unfold do_call
  rw [haddr]
  try dsimp only
  rw [hval]
  try dsimp only
  rw [hb]
  try dsimp only
  rw [decide_eq_true hlt]

/-- Witness for C10: memory of 52 bytes with value 1 at the value
pointer and a provider balance of 0. -/
theorem do_call_insufficient_balance_no_effect_witness :
    do_call true .Call ⟨⟨5, 1⟩, .ok 0, .Failed, []⟩ 9 0 20 0 0 0 0
      (with_params (List.replicate 51 0 ++ [1]) 100 [] ⟨[], [], [], [], 0⟩)
      = .ok ⟨-1, with_params (List.replicate 51 0 ++ [1]) 100 []
              ⟨[], [], [], [], 0⟩, false, none⟩ :=
  do_call_insufficient_balance_no_effect .Call ⟨⟨5, 1⟩, .ok 0, .Failed, []⟩
    9 0 20 0 0 0 0
    (with_params (List.replicate 51 0 ++ [1]) 100 [] ⟨[], [], [], [], 0⟩)
    (List.replicate 20 0) 1 0 (by decide) (by decide) rfl (by decide)

/-- C4: the sub-call protocol. When a sub-call passes its guards up to
the provider invocation, exactly call_gas plus the forwarded gas has
been charged at the moment the provider is invoked; on Success or
Reverted the unused gas u is refunded by subtraction from the gas
counter (exact subtraction whenever u is at most the counter) and the
provider buffer is written back at result_ptr, returning 0 resp. -1; on
Failed the call returns -1 with the post-charge state intact: no refund
and no write-back. -/
theorem do_call_provider_protocol
    (use_val : Bool) (ct : CallType) (ext : Ext)
    (gas addr_ptr val_ptr input_ptr input_len result_ptr ral : Nat)
    (st st1 st2 : RuntimeState) (a payload : List Nat) (val : Option Nat)
    (haddr : address_at st.memory addr_ptr = .ok a)
    (hval : (if use_val then (u256_at st.memory val_ptr).map some
             else (.ok none : Except Error (Option Nat))) = .ok val)
    (hbal : (match val with
             | some v =>
               match ext.balanceResult with
               | .error _ => Except.error Error.BalanceQueryError
               | .ok address_balance =>
                 Except.ok (decide (address_balance < v))
             | none => Except.ok false) = Except.ok false)
    (hc1 : charge ext.schedule.call_gas st = .ok st1)
    (hpay : memGet st1.memory input_ptr input_len = .ok payload)
    (hc2 : charge gas st1 = .ok st2) :
    st2.gas_counter
        = (st.gas_counter + ext.schedule.call_gas + gas) % U64MOD
    ∧ (∀ u mem1, ext.callResult = .Success u →
        memSet st2.memory result_ptr (provider_buffer ext.callOutput ral)
          = .ok mem1 →
        do_call use_val ct ext gas addr_ptr val_ptr input_ptr input_len
          result_ptr ral st
          = .ok ⟨0, { st2 with
                      gas_counter := sub64 st2.gas_counter u
                      memory := mem1 }, true, some st2.gas_counter⟩)
    ∧ (∀ u mem1, ext.callResult = .Reverted u →
        memSet st2.memory result_ptr (provider_buffer ext.callOutput ral)
          = .ok mem1 →
        do_call use_val ct ext gas addr_ptr val_ptr input_ptr input_len
          result_ptr ral st
          = .ok ⟨-1, { st2 with
                       gas_counter := sub64 st2.gas_counter u
                       memory := mem1 }, true, some st2.gas_counter⟩)
    ∧ (ext.callResult = .Failed →
        do_call use_val ct ext gas addr_ptr val_ptr input_ptr input_len
          result_ptr ral st
          = .ok ⟨-1, st2, true, some st2.gas_counter⟩)
    ∧ (∀ u, u ≤ st2.gas_counter →
        sub64 st2.gas_counter u = st2.gas_counter - u)
    ∧ (ext.callOutput.length = ral →
        provider_buffer ext.callOutput ral = ext.callOutput) := by
  have hgc1 := (charge_ok_iff ext.schedule.call_gas st st1).mp hc1
  have hgc2 := (charge_ok_iff gas st1 st2).mp hc2
  have hsum : st2.gas_counter
      = (st.gas_counter + ext.schedule.call_gas + gas) % U64MOD := by
    rw [hgc2.2]
    show (st1.gas_counter + gas) % U64MOD = _
    rw [hgc1.2]
    show ((st.gas_counter + ext.schedule.call_gas) % U64MOD + gas) % U64MOD
      = _
    rw [Nat.mod_add_mod]
  have hcommon : do_call use_val ct ext gas addr_ptr val_ptr input_ptr
      input_len result_ptr ral st
      = (match ext.callResult with
         | .Success gas_left =>
           match memSet st2.memory result_ptr
               (provider_buffer ext.callOutput ral) with
           | .error e => .error e
           | .ok mem1 =>
             .ok ⟨0, { st2 with
                       gas_counter := sub64 st2.gas_counter gas_left
                       memory := mem1 }, true, some st2.gas_counter⟩
         | .Reverted gas_left =>
           match memSet st2.memory result_ptr
               (provider_buffer ext.callOutput ral) with
           | .error e => .error e
           | .ok mem1 =>
             .ok ⟨-1, { st2 with
                        gas_counter := sub64 st2.gas_counter gas_left
                        memory := mem1 }, true, some st2.gas_counter⟩
         | .Failed => .ok ⟨-1, st2, true, some st2.gas_counter⟩) := by
    unfold do_call
    rw [haddr]
    try dsimp only
    rw [hval]
    try dsimp only
    rw [hbal]
    try dsimp only
    rw [hc1]
    try dsimp only
    rw [hpay]
    try dsimp only
    rw [hc2]
  refine ⟨hsum, ?_, ?_, ?_, ?_, ?_⟩
  · intro u mem1 hcr hset
    rw [hcommon, hcr]
    try dsimp only
    rw [hset]
  · intro u mem1 hcr hset
    rw [hcommon, hcr]
    try dsimp only
    rw [hset]
  · intro hcr
    rw [hcommon, hcr]
  · intro u hu
    refine sub64_eq_sub st2.gas_counter u hu ?_
    rw [hsum]
    exact Nat.mod_lt _ (by decide)
  · intro hlen
    exact provider_buffer_exact ext.callOutput ral hlen

/-- Witness for C4: a concrete static sub-call over a 64-byte memory
with call_gas 5, forwarded gas 10 and a Success with 2 units of unused
gas: 13 = 5 + 10 - 2 remains charged and the two provider bytes appear
at offset 40. -/
theorem do_call_provider_protocol_witness :
    ({ with_params (List.replicate 64 0) 1000 [] ⟨[], [], [], [], 0⟩ with
        gas_counter := 15 } : RuntimeState).gas_counter
      = (0 + 5 + 10) % U64MOD
    ∧ do_call false .StaticCall ⟨⟨5, 1⟩, .ok 0, .Success 2, [7, 7]⟩ 10 0 0
        30 4 40 2
        (with_params (List.replicate 64 0) 1000 [] ⟨[], [], [], [], 0⟩)
        = .ok ⟨0, { gas_counter := 13, gas_limit := 1000,
                    memory := List.replicate 40 0 ++ [7, 7]
                      ++ List.replicate 22 0,
                    args := [], result := [],
                    context := ⟨[], [], [], [], 0⟩ },
               true, some 15⟩ := by
  have h := do_call_provider_protocol false .StaticCall
    ⟨⟨5, 1⟩, .ok 0, .Success 2, [7, 7]⟩ 10 0 0 30 4 40 2
    (with_params (List.replicate 64 0) 1000 [] ⟨[], [], [], [], 0⟩)
    { with_params (List.replicate 64 0) 1000 [] ⟨[], [], [], [], 0⟩ with
      gas_counter := 5 }
    { with_params (List.replicate 64 0) 1000 [] ⟨[], [], [], [], 0⟩ with
      gas_counter := 15 }
    (List.replicate 20 0) (List.replicate 4 0) none
    (by decide) (by decide) (by decide) (by decide) (by decide) (by decide)
  refine ⟨h.1, ?_⟩
  have h2 := h.2.1 2 (List.replicate 40 0 ++ [7, 7] ++ List.replicate 22 0)
    rfl (by decide)
  exact h2.trans (by decide)

end Wasm2
